import Mathlib

/-!
Shallow embedding of pyquil's parse-tree listener (src/pyquil/_parser/PyQuilListener.py),
the semantic-analysis stage that turns a Quil concrete syntax tree into a list of
instruction AST nodes.

Conventions of the embedding:
* Python exceptions become `Except PErr`; a handler that cannot raise is a plain function.
* Machine numerics: the parameter expressions relevant here carry only rational literals,
  so concrete numbers are modelled as `ℚ`.
* ANTLR context objects become records carrying exactly the accessor results the listener
  reads (token texts, optional sub-nodes).
* The mutable listener (`self.result`, `self.previous_result`) becomes explicit state
  passing over `ListenerState`.
-/

/-- Python exception classes raised (directly or by builtins) in the listener. -/
inductive PErr
  | valueError (msg : String)
  | runtimeError (msg : String)
  | indexError (msg : String)
  | attributeError (msg : String)
deriving DecidableEq

/-- A classical memory reference.  `MemoryReference(name, offset)` from pyquil.quilatom.
The legacy bare-integer address form (`Addr`) is, per the spec (§4.2), a bare integer
offset into an implicit register, so it is represented here as a reference into the
implicit region `"ro"`. -/
structure MemRef where
  name : String
  offset : Nat
deriving DecidableEq

/-- Evaluated parameter expressions as produced by `_expression`: either a concrete
number or a symbolic node (memory reference, named parameter, operator or function
application over sub-expressions). -/
inductive PExpr
  | num (r : ℚ)
  | memRef (m : MemRef)
  | param (name : String)
  | add (a b : PExpr)
  | sub (a b : PExpr)
  | mul (a b : PExpr)
  | div (a b : PExpr)
  | pow (a b : PExpr)
  | fn (name : String) (a : PExpr)
deriving DecidableEq

/-- A qubit reference: a concrete index (`Qubit`) or a named formal argument
(`FormalArgument`). -/
inductive QubitRef
  | qubit (n : Nat)
  | formal (name : String)
deriving DecidableEq

/-- Model of Python `int(text)` as it is applied to grammar leaf tokens.  The tokens fed
to `_qubit` are either `INT` tokens (nonempty strings of decimal digits) or identifiers
(which always contain a non-digit and make `int` raise `ValueError`); on that token
universe `int` succeeds exactly on all-digit nonempty strings and returns their decimal
value. -/
def pyInt? (s : String) : Option Nat :=
  if s.data ≠ [] ∧ s.data.all Char.isDigit then
    some (s.data.foldl (fun n c => 10 * n + (c.toNat - Char.toNat '0')) 0)
  else
    none

/-- `_qubit`: `Qubit(int(qubit.getText()))`; raises `ValueError` when the text is not a
decimal numeral. -/
def _qubit (text : String) : Except PErr QubitRef :=
  match pyInt? text with
  | some n => .ok (.qubit n)
  | none => .error (.valueError ("invalid literal for int() with base 10: " ++ text))

/-- `_formalQubit`: try `_qubit`, and on `ValueError` fall back to wrapping the literal
text as a `FormalArgument`. -/
def _formalQubit (text : String) : Except PErr QubitRef :=
  match _qubit text with
  | .ok q => .ok q
  | .error _ => .ok (.formal text)

/-- The literal and symbolic display names of one expected token, as looked up in
`parser.literalNames` / `parser.symbolicNames`. -/
structure TokenNames where
  literalName : String
  symbolicName : String
deriving DecidableEq

/-- `CustomErrorListener.get_expected_tokens`: render each expected token by its literal
surface form unless that is `"<INVALID>"`, in which case fall back to the symbolic rule
name. -/
def get_expected_tokens (toks : List TokenNames) : List String :=
  toks.map (fun t => if t.literalName ≠ "<INVALID>" then t.literalName else t.symbolicName)

/-- The pieces of the diagnostic built by `CustomErrorListener.syntaxError`: the two
`format` templates with their interpolated arguments, in order.  (The template text
around the offending token elides the source's quote characters; the claims under
study concern the interpolated data, not the quoting.) -/
def mismatchMessageParts (line column : Nat) (offendingText : String)
    (expected : List String) : List String :=
  ["Error encountered while parsing the quil program at line ", toString line,
   " and column ", toString (column + 1), "\n",
   "Received an ", offendingText,
   " but was expecting one of [ ", String.intercalate ", " expected, " ]"]

/-- The full diagnostic message raised by `CustomErrorListener.syntaxError`. -/
def mismatchMessage (line column : Nat) (offendingText : String)
    (expected : List String) : String :=
  String.join (mismatchMessageParts line column offendingText expected)

/-- `CustomErrorListener.syntaxError`: compute the expected-token renderings when the
recognition exception is present (the empty list otherwise) and raise a single
`RuntimeError`; parsing never continues past it. -/
def customErrorListener (line column : Nat) (offendingText : String)
    (e : Option (List TokenNames)) : Except PErr Unit :=
  let expected_tokens := match e with
    | some toks => get_expected_tokens toks
    | none => []
  .error (.runtimeError (mismatchMessage line column offendingText expected_tokens))

/-- `s` occurs contiguously inside `t`. -/
def StrInfix (s t : String) : Prop :=
  s.data <:+: t.data

/-- One applied gate-modifier wrapper: the record of (kind, extra qubit or extra
parameter group) described by the spec's modifier chain (§3). -/
inductive GateModifier
  | controlled (q : QubitRef)
  | daggered
  | forked (q : QubitRef) (group : List PExpr)
deriving DecidableEq

/-- A gate instruction under construction: name, base parameters, base qubits, and the
chain of modifier wrappers in the order they were applied (head = applied first, i.e.
innermost wrapper). -/
structure GateI where
  name : String
  params : List PExpr
  qubits : List QubitRef
  applied : List GateModifier
deriving DecidableEq

/-- Modelled from the spec: `Gate.controlled` (pyquil.quilbase, not under src/) wraps the
gate as controlled by one extra qubit; the spec's modifier chain records it as a
(kind, extra qubit) entry in application order. -/
def GateI.controlled (g : GateI) (q : QubitRef) : GateI :=
  { g with applied := g.applied ++ [.controlled q] }

/-- Modelled from the spec: `Gate.dagger` (pyquil.quilbase, not under src/) wraps the
gate as its adjoint; recorded as a kind-only entry of the modifier chain. -/
def GateI.dagger (g : GateI) : GateI :=
  { g with applied := g.applied ++ [.daggered] }

/-- Modelled from the spec: `Gate.forked` (pyquil.quilbase, not under src/) wraps the
gate as forked on one extra qubit and one extra parameter group; recorded as a
(kind, extra qubit, extra params) entry of the modifier chain. -/
def GateI.forked (g : GateI) (q : QubitRef) (group : List PExpr) : GateI :=
  { g with applied := g.applied ++ [.forked q group] }

/-- The instruction AST nodes (`pyquil.quilbase` classes) produced by the handlers
modelled in this file. -/
inductive Instr
  | gate (g : GateI)
  | rawInstr (text : String)
  | defCalibration (name : String) (params : List PExpr) (qubits : List QubitRef)
      (body : List Instr)
  | defMeasureCalibration (qubit : QubitRef) (memRefName : Option String)
      (body : List Instr)
  | defWaveform (name : String) (params : List String) (entries : List PExpr)
  | delayFrames (frames : List (List QubitRef × String)) (duration : PExpr)
  | delayQubits (qubits : List QubitRef) (duration : PExpr)
  | declare (name memoryType : String) (memorySize : Nat)
      (sharedRegion : Option String) (offsets : List (Nat × String))
  | classicalAnd (left : MemRef) (right : Int ⊕ MemRef)
  | classicalOr (left : MemRef) (right : MemRef)
  | classicalInclusiveOr (left : MemRef) (right : Int ⊕ MemRef)
  | classicalExclusiveOr (left : MemRef) (right : Int ⊕ MemRef)

/-- The listener's mutable state: the current accumulation buffer (`self.result`) and
the saved buffer of an open definition scope (`self.previous_result`, `None` outside a
definition body). -/
structure ListenerState where
  result : List Instr
  previous_result : Option (List Instr)

/-- `PyQuilListener.__init__`: empty buffer, no saved buffer. -/
def ListenerState.init : ListenerState :=
  ⟨[], none⟩

/-- The loop of `exitGate` that assigns one leading qubit to each `CONTROLLED`/`FORKED`
modifier in written order: `modifier_qubits.append(qubits[len(modifier_qubits)])`, where
an out-of-range index raises `IndexError`. -/
def collectModifierQubits (qubits : List QubitRef) :
    List String → List QubitRef → Except PErr (List QubitRef)
  | [], acc => .ok acc
  | m :: rest, acc =>
    if m = "CONTROLLED" ∨ m = "FORKED" then
      match qubits[acc.length]? with
      | some q => collectModifierQubits qubits rest (acc ++ [q])
      | none => .error (.indexError "list index out of range")
    else
      collectModifierQubits qubits rest acc

/-- The modifier-application loop of `exitGate`, already iterating over
`modifiers[::-1]` (so the list argument is the reversed written order).  `mq` is the
remaining `modifier_qubits` list (`pop()` takes its last element, raising `IndexError`
when empty), `fo` the current `forked_offset`; a `FORKED` consumes the parameter window
`params[fo : 2*fo]` and doubles `fo`; an unrecognized keyword raises `ValueError`. -/
def applyModifiers (params : List PExpr) :
    List String → List QubitRef → Nat → GateI → Except PErr GateI
  | [], _, _, g => .ok g
  | m :: rest, mq, fo, g =>
    if m = "CONTROLLED" then
      match mq.getLast? with
      | some q => applyModifiers params rest mq.dropLast fo (g.controlled q)
      | none => .error (.indexError "pop from empty list")
    else if m = "DAGGER" then
      applyModifiers params rest mq fo g.dagger
    else if m = "FORKED" then
      match mq.getLast? with
      | some q =>
          applyModifiers params rest mq.dropLast (2 * fo)
            (g.forked q ((params.drop fo).take fo))
      | none => .error (.indexError "pop from empty list")
    else
      .error (.valueError ("Unsupported gate modifier " ++ m ++ "."))

/-- `PyQuilListener.exitGate`.  `knownGates` stands for the primitive-gate catalog
`QUANTUM_GATES` (pyquil.gates, not under src/): per the spec (§4.3 step 5) a catalog hit
instantiates the primitive with the base parameters and base qubits, which is
observationally the same gate record as the generic `Gate(...)` branch, so both
branches of the source's `if gate_name in QUANTUM_GATES` build the same `GateI`. -/
def exitGate (knownGates : List String) (gate_name : String) (modifiers : List String)
    (params : List PExpr) (qubits : List QubitRef) (s : ListenerState) :
    Except PErr ListenerState := do
  let modifier_qubits ← collectModifierQubits qubits modifiers []
  let base_qubits := qubits.drop modifier_qubits.length
  let forked_offset := params.length >>> (modifiers.count "FORKED")
  let base_params := params.take forked_offset
  let gate : GateI :=
    if gate_name ∈ knownGates then
      { name := gate_name, params := base_params, qubits := base_qubits, applied := [] }
    else
      { name := gate_name, params := base_params, qubits := base_qubits, applied := [] }
  let gate ← applyModifiers params modifiers.reverse modifier_qubits forked_offset gate
  .ok { s with result := s.result ++ [.gate gate] }

/-- Modelled from the spec: `_contained_mrefs` (pyquil.quilatom, not under src/) collects
every live memory-reference sub-expression contained in an evaluated parameter
expression (§4.4: "no formal parameter expression contains a live memory-reference
sub-expression"). -/
def containedMrefs : PExpr → List MemRef
  | .num _ => []
  | .memRef m => [m]
  | .param _ => []
  | .add a b => containedMrefs a ++ containedMrefs b
  | .sub a b => containedMrefs a ++ containedMrefs b
  | .mul a b => containedMrefs a ++ containedMrefs b
  | .div a b => containedMrefs a ++ containedMrefs b
  | .pow a b => containedMrefs a ++ containedMrefs b
  | .fn _ a => containedMrefs a

/-- Modelled from the spec: the diagnostic rendering of one memory reference
(pyquil.quilatom, not under src/), the `name[offset]` surface form. -/
def MemRef.render (m : MemRef) : String :=
  m.name ++ "[" ++ toString m.offset ++ "]"

/-- The comma-separated renderings of the references of a list, as pieces. -/
def mrefsRenderList : List MemRef → List String
  | [] => []
  | [m] => [MemRef.render m]
  | m :: rest => MemRef.render m :: ", " :: mrefsRenderList rest

/-- The rendering of a list of memory references inside the `DEFCAL` diagnostic (the
f-string formatting of the Python list `mrefs`): brackets around the comma-separated
reference renderings. -/
def mrefsRender (l : List MemRef) : String :=
  String.join ("[" :: mrefsRenderList l ++ ["]"])

/-- The pieces of the `ValueError` message of `exitDefCalibration` for one offending
parameter (the source template, with its quoted percent marker elided). -/
def defcalMrefMessageParts (name : String) (mrefs : List MemRef) : List String :=
  ["Unexpected memory references ", mrefsRender mrefs, " in DEFCAL ", name,
   ". Did you forget a percent marker?"]

/-- `PyQuilListener.enterDefCalibration`: save the current accumulation buffer and start
an empty one. -/
def enterDefCalibration (s : ListenerState) : ListenerState :=
  ⟨[], some s.result⟩

/-- `PyQuilListener.exitDefCalibration`: validate that no formal parameter contains live
memory references (raising `ValueError` naming the first offender's references), then
restore the saved buffer and append one `DefCalibration` carrying the name, parameters,
formal qubits and the entire captured body. -/
def exitDefCalibration (name : String) (params : List PExpr)
    (qubits : List QubitRef) (s : ListenerState) : Except PErr ListenerState :=
  match params.find? (fun p => !(containedMrefs p).isEmpty) with
  | some p =>
      .error (.valueError (String.join (defcalMrefMessageParts name (containedMrefs p))))
  | none =>
      match s.previous_result with
      | none => .error (.attributeError "NoneType object has no attribute append")
      | some prev =>
          .ok ⟨prev ++ [.defCalibration name params qubits s.result], none⟩

/-- `PyQuilListener.enterDefMeasCalibration`: save the current accumulation buffer and
start an empty one. -/
def enterDefMeasCalibration (s : ListenerState) : ListenerState :=
  ⟨[], some s.result⟩

/-- `PyQuilListener.exitDefMeasCalibration`: resolve the formal qubit, restore the saved
buffer and append one `DefMeasureCalibration` with the optional formal memory-reference
name and the entire captured body. -/
def exitDefMeasCalibration (memRefName : Option String) (formalQubitText : String)
    (s : ListenerState) : Except PErr ListenerState := do
  let qubit ← _formalQubit formalQubitText
  match s.previous_result with
  | none => .error (.attributeError "NoneType object has no attribute append")
  | some prev =>
      .ok ⟨prev ++ [.defMeasureCalibration qubit memRefName s.result], none⟩

/-- `PyQuilListener.enterDefCircuit`: save the current accumulation buffer and start an
empty one. -/
def enterDefCircuit (s : ListenerState) : ListenerState :=
  ⟨[], some s.result⟩

/-- The `DEFCIRCUIT` header line built by `exitDefCircuit` from the circuit name, its
declared variables and its formal qubit variables. -/
def defcircuitHeader (name : String) (vars qubitVariables : List String) : String :=
  let space := if qubitVariables ≠ [] then " " else ""
  if vars ≠ [] then
    "DEFCIRCUIT " ++ name ++ "(" ++ String.intercalate ", " vars ++ ")" ++
      space ++ String.intercalate " " qubitVariables ++ ":"
  else
    "DEFCIRCUIT " ++ name ++ space ++ String.intercalate " " qubitVariables ++ ":"

/-- `PyQuilListener.exitDefCircuit`: restore the saved buffer and append one `RawInstr`
holding the header plus every captured body instruction re-serialized with the fixed
four-space indentation.  `out` stands for the per-instruction serializer `instr.out()`
(pyquil.quilbase, not under src/), which the handler uses opaquely. -/
def exitDefCircuit (out : Instr → String) (name : String)
    (vars qubitVariables : List String) (s : ListenerState) :
    Except PErr ListenerState :=
  match s.previous_result with
  | none => .error (.attributeError "NoneType object has no attribute append")
  | some prev =>
      let raw := defcircuitHeader name vars qubitVariables ++
        String.intercalate "\n    " ("" :: s.result.map out)
      .ok ⟨prev ++ [.rawInstr raw], none⟩

/-- `_waveform_name`: join the name segments with `/`. -/
def _waveform_name (specs : List String) : String :=
  String.intercalate "/" specs

/-- `PyQuilListener.exitDefWaveform`.  `waveformClasses` stands for the reserved
built-in template waveform catalog `_waveform_classes` (pyquil.quiltwaveforms, not under
src/), a read-only collaborator per the spec (§6).  A name collision raises `ValueError`
before anything is appended; otherwise one `DefWaveform` with the parameter names and
the row-flattened matrix entries is appended. -/
def exitDefWaveform (waveformClasses : List String) (nameSpecs : List String)
    (params : List String) (matrix : List (List PExpr)) (s : ListenerState) :
    Except PErr ListenerState :=
  let name := _waveform_name nameSpecs
  if name ∈ waveformClasses then
    .error (.valueError ("Attempted to redefine built-in template waveform " ++ name ++ "."))
  else
    .ok { s with result := s.result ++ [.defWaveform name params matrix.flatten] }

/-- Python `text.strip(quote)` for the double-quote character, as applied to `STRING`
tokens in `exitDelay`: drop every leading and trailing `"`. -/
def stripQuotes (s : String) : String :=
  ⟨((s.data.dropWhile (· == '"')).reverse.dropWhile (· == '"')).reverse⟩

/-- The list comprehension `[_formalQubit(q) for q in ...]`: resolve each formal-qubit
text in order (propagating an exception, though `_formalQubit` never raises). -/
def mapFormalQubits : List String → Except PErr (List QubitRef)
  | [] => .ok []
  | t :: rest => do
    let q ← _formalQubit t
    let qs ← mapFormalQubits rest
    .ok (q :: qs)

/-- `PyQuilListener.exitDelay`: resolve the formal qubits and the duration expression;
with explicit frame-name string literals present, append a single `DelayFrames` holding
one synthesized frame per name (each scoped to the given qubits), otherwise append a
single qubit-scoped `DelayQubits`. -/
def exitDelay (formalQubitTexts : List String) (stringTokens : List String)
    (duration : PExpr) (s : ListenerState) : Except PErr ListenerState := do
  let qubits ← mapFormalQubits formalQubitTexts
  let explicit_frames := stringTokens.map stripQuotes
  let delay :=
    if explicit_frames ≠ [] then
      Instr.delayFrames (explicit_frames.map (fun name => (qubits, name))) duration
    else
      Instr.delayQubits qubits duration
  .ok { s with result := s.result ++ [delay] }

/-- The accessor results of a `memoryDescriptor` context node: `IDENTIFIER(0)` (name),
`IDENTIFIER(1)` (type), the optional `INT` size token, `IDENTIFIER(2)` when a `SHARING`
clause is present, and the `(INT, IDENTIFIER)` pairs of its `offsetDescriptor` children
in source order. -/
structure MemoryDescriptorCtx where
  name : String
  memoryType : String
  int? : Option Nat
  sharingIdent? : Option String
  offsetDescriptors : List (Nat × String)

/-- `PyQuilListener.exitMemoryDescriptor`: element count defaults to 1 without an
explicit size; with `SHARING` the declaration carries the shared-region name and the
offset pairs in source order, without it no region and an empty offset list. -/
def exitMemoryDescriptor (ctx : MemoryDescriptorCtx) (s : ListenerState) :
    ListenerState :=
  let memory_size := match ctx.int? with
    | some n => n
    | none => 1
  let shared_offsets : Option String × List (Nat × String) :=
    match ctx.sharingIdent? with
    | some region => (some region, ctx.offsetDescriptors)
    | none => (none, [])
  { s with result := s.result ++
      [.declare ctx.name ctx.memoryType memory_size shared_offsets.1 shared_offsets.2] }

/-- The accessor results of an `addr` context node: the optional `IDENTIFIER` token and
the optional `INT` token. -/
structure AddrCtx where
  ident? : Option String
  int? : Option Nat

/-- `_addr`: identifier with optional integer offset (offset defaults to 0) resolves to
a named memory reference; the legacy bare-integer form resolves through `Addr` into the
implicit register (`"ro"`, see `MemRef`); a node with neither token would crash the
accessor chain (`AttributeError`). -/
def _addr (c : AddrCtx) : Except PErr MemRef :=
  match c.ident? with
  | some name =>
      match c.int? with
      | some k => .ok ⟨name, k⟩
      | none => .ok ⟨name, 0⟩
  | none =>
      match c.int? with
      | some k => .ok ⟨"ro", k⟩
      | none => .error (.attributeError "NoneType object has no attribute getText")

/-- Which of the four keyword tokens is present on a `logicalBinaryOp` node (the
source's `ctx.AND()` / `ctx.OR()` / `ctx.IOR()` / `ctx.XOR()` checks). -/
inductive LogicalOpTag
  | opAND
  | opOR
  | opIOR
  | opXOR
deriving DecidableEq

/-- The accessor results of a `logicalBinaryOp` context node: the keyword, `addr(0)`,
the optional `INT` right operand and the optional `addr(1)` right operand. -/
structure LogicalBinaryOpCtx where
  op : LogicalOpTag
  addr0 : AddrCtx
  int? : Option Int
  addr1? : Option AddrCtx

/-- `PyQuilListener.exitLogicalBinaryOp`: the right operand is the integer literal when
the `INT` token is present and a resolved memory reference otherwise; `AND`, `IOR` and
`XOR` append the corresponding instruction with either operand form, while the
deprecated `OR` raises `RuntimeError` (appending nothing) unless the right operand is a
`MemoryReference`. -/
def exitLogicalBinaryOp (ctx : LogicalBinaryOpCtx) (s : ListenerState) :
    Except PErr ListenerState := do
  let left ← _addr ctx.addr0
  let right : Int ⊕ MemRef ←
    match ctx.int? with
    | some n => pure (.inl n)
    | none =>
        match ctx.addr1? with
        | some a => do
            let m ← _addr a
            pure (.inr m)
        | none => .error (.attributeError "NoneType object has no attribute getText")
  match ctx.op with
  | .opAND => .ok { s with result := s.result ++ [.classicalAnd left right] }
  | .opOR =>
      match right with
      | .inr m => .ok { s with result := s.result ++ [.classicalOr left m] }
      | .inl n =>
          .error (.runtimeError
            ("Right operand of deprecated OR instruction must be a MemoryReference, but found "
              ++ toString n))
  | .opIOR => .ok { s with result := s.result ++ [.classicalInclusiveOr left right] }
  | .opXOR => .ok { s with result := s.result ++ [.classicalExclusiveOr left right] }

/-- The modifier keyword that produced one entry of an applied-wrapper chain. -/
def modKind : GateModifier → String
  | .controlled _ => "CONTROLLED"
  | .daggered => "DAGGER"
  | .forked _ _ => "FORKED"

/-- The extra qubit consumed by one applied wrapper, when its kind consumes one. -/
def modQubit? : GateModifier → Option QubitRef
  | .controlled q => some q
  | .daggered => none
  | .forked q _ => some q

/-- The extra parameter group consumed by one applied wrapper, for `FORKED` entries. -/
def forkedGroup? : GateModifier → Option (List PExpr)
  | .forked _ group => some group
  | _ => none

/-- The parameter groups of the `FORKED` entries of an applied-wrapper chain, in
application order. -/
def forkedGroups (l : List GateModifier) : List (List PExpr) :=
  l.filterMap forkedGroup?

/-- The successive parameter windows consumed by `k` `FORKED` applications starting at
offset `fo`: the window `params[fo : 2*fo]`, then the windows from offset `2*fo`. -/
def forkedWindows (params : List PExpr) : Nat → Nat → List (List PExpr)
  | _, 0 => []
  | fo, Nat.succ k => (params.drop fo).take fo :: forkedWindows params (2 * fo) k

/-- The number of `CONTROLLED` or `FORKED` keywords in a modifier list (the number of
modifier qubits `exitGate` assigns). -/
def countCF : List String → Nat
  | [] => 0
  | m :: rest => (if m = "CONTROLLED" ∨ m = "FORKED" then 1 else 0) + countCF rest

theorem forkedGroups_append (l₁ l₂ : List GateModifier) :
    forkedGroups (l₁ ++ l₂) = forkedGroups l₁ ++ forkedGroups l₂ := by
  simp [forkedGroups, List.filterMap_append]

theorem applyModifiers_ok (params : List PExpr) :
    ∀ (ms : List String) (mq : List QubitRef) (fo : Nat) (g g' : GateI),
      applyModifiers params ms mq fo g = .ok g' →
      g'.name = g.name ∧ g'.params = g.params ∧ g'.qubits = g.qubits ∧
      g'.applied.map modKind = g.applied.map modKind ++ ms ∧
      forkedGroups g'.applied =
        forkedGroups g.applied ++ forkedWindows params fo (ms.count "FORKED") := by
  intro ms
  induction ms with
  | nil =>
    intro mq fo g g' h
    simp only [applyModifiers, Except.ok.injEq] at h
    subst h
    simp [forkedWindows]
  | cons m rest ih =>
    intro mq fo g g' h
    simp only [applyModifiers] at h
    split_ifs at h with h1 h2 h3
    · subst h1
      cases hql : mq.getLast? with
      | none => rw [hql] at h; exact absurd h (by simp)
      | some q =>
        rw [hql] at h
        obtain ⟨hn, hp, hq, hm, hg⟩ := ih mq.dropLast fo (g.controlled q) g' h
        refine ⟨hn, hp, hq, ?_, ?_⟩
        · rw [hm]
          simp [GateI.controlled, modKind, List.count_cons]
        · rw [hg]
          simp [GateI.controlled, forkedGroups_append, forkedGroups, forkedGroup?,
            List.count_cons, forkedWindows]
    · subst h2
      obtain ⟨hn, hp, hq, hm, hg⟩ := ih mq fo g.dagger g' h
      refine ⟨hn, hp, hq, ?_, ?_⟩
      · rw [hm]; simp [GateI.dagger, modKind]
      · rw [hg]
        simp [GateI.dagger, forkedGroups_append, forkedGroups, forkedGroup?,
          List.count_cons]
    · subst h3
      cases hql : mq.getLast? with
      | none => rw [hql] at h; exact absurd h (by simp)
      | some q =>
        rw [hql] at h
        obtain ⟨hn, hp, hq, hm, hg⟩ :=
          ih mq.dropLast (2 * fo) (g.forked q ((params.drop fo).take fo)) g' h
        refine ⟨hn, hp, hq, ?_, ?_⟩
        · rw [hm]; simp [GateI.forked, modKind]
        · rw [hg]
          simp [GateI.forked, forkedGroups_append, forkedGroups, forkedGroup?,
            List.count_cons, forkedWindows]

theorem countCF_append (l₁ l₂ : List String) :
    countCF (l₁ ++ l₂) = countCF l₁ + countCF l₂ := by
  induction l₁ with
  | nil => simp [countCF]
  | cons m rest ih => simp [countCF, ih]; omega

theorem countCF_reverse (l : List String) : countCF l.reverse = countCF l := by
  induction l with
  | nil => rfl
  | cons m rest ih => simp [countCF, List.reverse_cons, countCF_append, ih]; omega

theorem getLast?_reverse_cons {α : Type} (l : List α) (q : α) (h : l.getLast? = some q) :
    l.reverse = q :: l.dropLast.reverse := by
  rcases l.eq_nil_or_concat with rfl | ⟨l', a, rfl⟩
  · simp at h
  · have ha : a = q := by simpa using h
    subst ha
    simp

theorem applyModifiers_qubits (params : List PExpr) :
    ∀ (ms : List String) (mq : List QubitRef) (fo : Nat) (g g' : GateI),
      applyModifiers params ms mq fo g = .ok g' →
      countCF ms = mq.length →
      g'.applied.filterMap modQubit? = g.applied.filterMap modQubit? ++ mq.reverse := by
  intro ms
  induction ms with
  | nil =>
    intro mq fo g g' h hc
    simp only [applyModifiers, Except.ok.injEq] at h
    subst h
    have : mq = [] := by
      cases mq with
      | nil => rfl
      | cons a l => simp [countCF] at hc
    subst this
    simp
  | cons m rest ih =>
    intro mq fo g g' h hc
    simp only [applyModifiers] at h
    split_ifs at h with h1 h2 h3
    · subst h1
      cases hql : mq.getLast? with
      | none =>
        rcases mq with _ | ⟨a, l⟩
        · simp [countCF] at hc
        · simp at hql
      | some q =>
        rw [hql] at h
        have hlen : countCF rest = mq.dropLast.length := by
          rcases mq with _ | ⟨a, l⟩
          · simp [countCF] at hc
          · simp [countCF] at hc ⊢
            omega
        have := ih mq.dropLast fo (g.controlled q) g' h hlen
        rw [this, getLast?_reverse_cons mq q hql]
        simp [GateI.controlled, modQubit?, List.filterMap_append]
    · subst h2
      have hlen : countCF rest = mq.length := by
        simp [countCF] at hc
        omega
      have := ih mq fo g.dagger g' h hlen
      rw [this]
      simp [GateI.dagger, modQubit?, List.filterMap_append]
    · subst h3
      cases hql : mq.getLast? with
      | none =>
        rcases mq with _ | ⟨a, l⟩
        · simp [countCF] at hc
        · simp at hql
      | some q =>
        rw [hql] at h
        have hlen : countCF rest = mq.dropLast.length := by
          rcases mq with _ | ⟨a, l⟩
          · simp [countCF] at hc
          · simp [countCF] at hc ⊢
            omega
        have := ih mq.dropLast (2 * fo) (g.forked q ((params.drop fo).take fo)) g' h hlen
        rw [this, getLast?_reverse_cons mq q hql]
        simp [GateI.forked, modQubit?, List.filterMap_append]

theorem collectModifierQubits_ok (qubits : List QubitRef) :
    ∀ (ms : List String) (acc l : List QubitRef),
      collectModifierQubits qubits ms acc = .ok l →
      acc = qubits.take acc.length →
      l = qubits.take (acc.length + countCF ms) ∧
        acc.length + countCF ms ≤ qubits.length := by
  intro ms
  induction ms with
  | nil =>
    intro acc l h hacc
    simp only [collectModifierQubits, Except.ok.injEq] at h
    subst h
    constructor
    · rw [countCF]; simpa using hacc
    · rw [countCF]
      have := congrArg List.length hacc
      simp [List.length_take] at this
      omega
  | cons m rest ih =>
    intro acc l h hacc
    simp only [collectModifierQubits] at h
    split_ifs at h with h1
    · cases hq : qubits[acc.length]? with
      | none => rw [hq] at h; exact absurd h (by simp)
      | some q =>
        rw [hq] at h
        have hacc' : acc ++ [q] = qubits.take (acc ++ [q]).length := by
          have : qubits.take (acc.length + 1) = qubits.take acc.length ++ [q] := by
            rw [List.take_succ, hq]
            simp
          simp [this, ← hacc]
        obtain ⟨hl, hle⟩ := ih (acc ++ [q]) l h hacc'
        constructor
        · rw [hl]
          congr 1
          simp [countCF, h1]
          omega
        · simp at hle
          simp [countCF, h1]
          omega
    · obtain ⟨hl, hle⟩ := ih acc l h hacc
      constructor
      · rw [hl]; congr 1; simp [countCF, h1]
      · simp [countCF, h1]; omega

theorem exitGate_ok (kg : List String) (name : String) (mods : List String)
    (params : List PExpr) (qubits : List QubitRef) (s s' : ListenerState)
    (h : exitGate kg name mods params qubits s = .ok s') :
    ∃ g : GateI,
      s'.result = s.result ++ [.gate g] ∧
      s'.previous_result = s.previous_result ∧
      g.name = name ∧
      g.params = params.take (params.length >>> mods.count "FORKED") ∧
      g.qubits = qubits.drop (countCF mods) ∧
      g.applied.map modKind = mods.reverse ∧
      g.applied.filterMap modQubit? = (qubits.take (countCF mods)).reverse ∧
      forkedGroups g.applied =
        forkedWindows params (params.length >>> mods.count "FORKED")
          (mods.count "FORKED") := by
  simp only [exitGate, bind, Except.bind] at h
  cases hc : collectModifierQubits qubits mods [] with
  | error e => rw [hc] at h; exact absurd h (by simp)
  | ok mq =>
    rw [hc] at h
    dsimp only at h
    rw [ite_self] at h
    obtain ⟨hmq, hle⟩ := collectModifierQubits_ok qubits mods [] mq hc (by simp)
    simp only [List.length_nil, Nat.zero_add] at hmq hle
    have hmqlen : mq.length = countCF mods := by
      rw [hmq, List.length_take]
      omega
    cases ha : applyModifiers params mods.reverse mq
        (params.length >>> mods.count "FORKED")
        { name := name, params := params.take (params.length >>> mods.count "FORKED"),
          qubits := qubits.drop mq.length, applied := [] } with
    | error e => rw [ha] at h; exact absurd h (by simp)
    | ok gate =>
      rw [ha] at h
      simp only [Except.ok.injEq] at h
      subst h
      obtain ⟨hn, hp, hq, hm, hg⟩ := applyModifiers_ok params mods.reverse mq
        (params.length >>> mods.count "FORKED") _ gate ha
      have hqb := applyModifiers_qubits params mods.reverse mq
        (params.length >>> mods.count "FORKED") _ gate ha
        (by rw [countCF_reverse, ← hmqlen])
      refine ⟨gate, by simp, by simp, by simpa using hn, by simpa using hp, ?_, ?_, ?_, ?_⟩
      · rw [hq, hmqlen]
      · simpa using hm
      · rw [hqb, hmq]
        simp
      · rw [hg]
        simp [forkedGroups, List.count_reverse]

/-- C1: for every gate syntax node, the base gate's parameters are the first
`forked_offset` entries of `params`, `forked_offset = len(params) >> (number of FORKED
modifiers)`; each FORKED application consumes the next `forked_offset`-sized parameter
window and doubles `forked_offset`; in particular `FORKED RX(0.5, 1.5) 0 1` yields the
two parameter groups `[0.5]` and `[1.5]`. -/
theorem exitGate_forked_param_partition :
    (∀ (kg : List String) (name : String) (mods : List String) (params : List PExpr)
        (qubits : List QubitRef) (s s' : ListenerState),
      exitGate kg name mods params qubits s = .ok s' →
      ∃ g : GateI, s'.result = s.result ++ [.gate g] ∧
        g.params = params.take (params.length >>> mods.count "FORKED") ∧
        forkedGroups g.applied =
          forkedWindows params (params.length >>> mods.count "FORKED")
            (mods.count "FORKED")) ∧
    (∃ s' g, exitGate [] "RX" ["FORKED"] [.num (1/2), .num (3/2)]
        [.qubit 0, .qubit 1] .init = .ok s' ∧
      s'.result = [.gate g] ∧ g.params = [.num (1/2)] ∧
      forkedGroups g.applied = [[.num (3/2)]]) := by
  constructor
  · intro kg name mods params qubits s s' h
    obtain ⟨g, h1, _, _, h4, _, _, _, h8⟩ := exitGate_ok kg name mods params qubits s s' h
    exact ⟨g, h1, h4, h8⟩
  · exact ⟨⟨[.gate ⟨"RX", [.num (1/2)], [.qubit 1], [.forked (.qubit 0) [.num (3/2)]]⟩],
      none⟩, ⟨"RX", [.num (1/2)], [.qubit 1], [.forked (.qubit 0) [.num (3/2)]]⟩,
      by rfl, rfl, rfl, by rfl⟩

/-- Witness for C1: the general partition theorem applied to the concrete gate node
`FORKED RX(0.5, 1.5) 0 1`. -/
theorem exitGate_forked_param_partition_witness :
    ∃ g : GateI,
      (⟨[Instr.gate ⟨"RX", [PExpr.num (1/2)], [QubitRef.qubit 1],
          [GateModifier.forked (.qubit 0) [PExpr.num (3/2)]]⟩], none⟩ :
        ListenerState).result = ListenerState.init.result ++ [Instr.gate g] ∧
      g.params = ([PExpr.num (1/2), PExpr.num (3/2)] : List PExpr).take
        (([PExpr.num (1/2), PExpr.num (3/2)] : List PExpr).length >>>
          (["FORKED"].count "FORKED")) ∧
      forkedGroups g.applied =
        forkedWindows [PExpr.num (1/2), PExpr.num (3/2)]
          (([PExpr.num (1/2), PExpr.num (3/2)] : List PExpr).length >>>
            (["FORKED"].count "FORKED"))
          (["FORKED"].count "FORKED") :=
  exitGate_forked_param_partition.1 [] "RX" ["FORKED"]
    [PExpr.num (1/2), PExpr.num (3/2)] [QubitRef.qubit 0, QubitRef.qubit 1]
    ListenerState.init _ (by rfl)

/-- C2: modifiers are applied to the base gate in reverse of their written order
(rightmost-written wraps first), each CONTROLLED or FORKED consuming the last-assigned
modifier qubit, and the instructions built for `DAGGER CONTROLLED X 0 1` and
`CONTROLLED DAGGER X 0 1` differ observably in wrapper order. -/
theorem exitGate_modifier_reversal :
    (∀ (kg : List String) (name : String) (mods : List String) (params : List PExpr)
        (qubits : List QubitRef) (s s' : ListenerState),
      2 ≤ mods.length →
      exitGate kg name mods params qubits s = .ok s' →
      ∃ g : GateI, s'.result = s.result ++ [.gate g] ∧
        g.applied.map modKind = mods.reverse ∧
        g.applied.filterMap modQubit? = (qubits.take (countCF mods)).reverse) ∧
    (∃ g₁ g₂ : GateI,
      exitGate [] "X" ["DAGGER", "CONTROLLED"] [] [.qubit 0, .qubit 1] .init =
        .ok ⟨[.gate g₁], none⟩ ∧
      exitGate [] "X" ["CONTROLLED", "DAGGER"] [] [.qubit 0, .qubit 1] .init =
        .ok ⟨[.gate g₂], none⟩ ∧
      g₁.applied ≠ g₂.applied) := by
  constructor
  · intro kg name mods params qubits s s' _ h
    obtain ⟨g, h1, _, _, _, _, h6, h7, _⟩ := exitGate_ok kg name mods params qubits s s' h
    exact ⟨g, h1, h6, h7⟩
  · exact ⟨⟨"X", [], [.qubit 1], [.controlled (.qubit 0), .daggered]⟩,
      ⟨"X", [], [.qubit 1], [.daggered, .controlled (.qubit 0)]⟩,
      by rfl, by rfl, by decide⟩

/-- Witness for C2: the reversal theorem applied to the concrete two-modifier gate node
`DAGGER CONTROLLED X 0 1`. -/
theorem exitGate_modifier_reversal_witness :
    ∃ g : GateI,
      (⟨[Instr.gate ⟨"X", [], [QubitRef.qubit 1],
          [GateModifier.controlled (.qubit 0), GateModifier.daggered]⟩], none⟩ :
        ListenerState).result = ListenerState.init.result ++ [Instr.gate g] ∧
      g.applied.map modKind = (["DAGGER", "CONTROLLED"] : List String).reverse ∧
      g.applied.filterMap modQubit? =
        (([QubitRef.qubit 0, QubitRef.qubit 1] : List QubitRef).take
          (countCF ["DAGGER", "CONTROLLED"])).reverse :=
  exitGate_modifier_reversal.1 [] "X" ["DAGGER", "CONTROLLED"] []
    [QubitRef.qubit 0, QubitRef.qubit 1] ListenerState.init _ (by decide) (by rfl)
theorem strInfix_trans {a b c : String} (h1 : StrInfix a b) (h2 : StrInfix b c) :
    StrInfix a c :=
  List.IsInfix.trans h1 h2

theorem data_foldl_append (l : List String) :
    ∀ acc : String, (l.foldl (fun r s => r ++ s) acc).data =
      acc.data ++ (l.map String.data).flatten := by
  induction l with
  | nil => intro acc; simp
  | cons x rest ih =>
    intro acc
    simp only [List.foldl_cons, ih, List.map_cons, List.flatten_cons]
    simp [String.data_append, List.append_assoc]

theorem data_join (l : List String) :
    (String.join l).data = (l.map String.data).flatten := by
  simp [String.join, data_foldl_append]

theorem strInfix_join_mem {x : String} {parts : List String} (h : x ∈ parts) :
    StrInfix x (String.join parts) := by
  obtain ⟨l₁, l₂, rfl⟩ := List.append_of_mem h
  unfold StrInfix
  rw [data_join]
  simp only [List.map_append, List.map_cons, List.flatten_append, List.flatten_cons]
  exact ⟨(l₁.map String.data).flatten, l₂.map String.data |>.flatten, by simp [List.append_assoc]⟩

theorem strInfix_join_adjacent {x y : String} {l₁ l₂ : List String} :
    StrInfix (x ++ y) (String.join (l₁ ++ x :: y :: l₂)) := by
  unfold StrInfix
  rw [data_join]
  simp only [List.map_append, List.map_cons, List.flatten_append, List.flatten_cons]
  refine ⟨(l₁.map String.data).flatten, (l₂.map String.data).flatten, ?_⟩
  simp [String.data_append, List.append_assoc]

/-- C8: every lexer/parser mismatch raises exactly one fatal error whose message carries
the line, the 0-based column plus one, the offending token text and the ordered
expected-token list rendered literal-first; a mismatch at 0-based column 5 reports
column 6; parsing never continues (the handler always raises). -/
theorem mismatch_diagnostic :
    (∀ (line column : Nat) (text : String) (toks : List TokenNames),
      ∃ msg, customErrorListener line column text (some toks) =
          .error (.runtimeError msg) ∧
        StrInfix (toString line) msg ∧
        StrInfix (toString (column + 1)) msg ∧
        StrInfix text msg ∧
        StrInfix (String.intercalate ", " (get_expected_tokens toks)) msg ∧
        get_expected_tokens toks = toks.map (fun t =>
          if t.literalName ≠ "<INVALID>" then t.literalName else t.symbolicName)) ∧
    (∀ (text : String) (toks : List TokenNames),
      ∃ msg, customErrorListener 3 5 text (some toks) = .error (.runtimeError msg) ∧
        StrInfix "column 6" msg) := by
  constructor
  · intro line column text toks
    refine ⟨mismatchMessage line column text (get_expected_tokens toks), rfl,
      ?_, ?_, ?_, ?_, rfl⟩
    · exact strInfix_join_mem (by simp [mismatchMessageParts])
    · exact strInfix_join_mem (by simp [mismatchMessageParts])
    · exact strInfix_join_mem (by simp [mismatchMessageParts])
    · exact strInfix_join_mem (by simp [mismatchMessageParts])
  · intro text toks
    refine ⟨mismatchMessage 3 5 text (get_expected_tokens toks), rfl, ?_⟩
    refine strInfix_trans (b := " and column " ++ toString (5 + 1))
      (by unfold StrInfix; decide) ?_
    show StrInfix _ (String.join (mismatchMessageParts 3 5 text _))
    have hparts : mismatchMessageParts 3 5 text (get_expected_tokens toks) =
        ["Error encountered while parsing the quil program at line ", toString 3] ++
          " and column " :: toString (5 + 1) ::
            ["\n", "Received an ", text, " but was expecting one of [ ",
              String.intercalate ", " (get_expected_tokens toks), " ]"] := rfl
    rw [hparts]
    exact strInfix_join_adjacent

/-- C4: a concrete integer-literal qubit text resolves to the concrete qubit with that
index, a non-numeric identifier text resolves to a formal argument wrapping the
identical text, and the fallback path never propagates an exception. -/
theorem formalQubit_resolution :
    (∀ (text : String) (n : Nat), pyInt? text = some n →
      _formalQubit text = .ok (.qubit n)) ∧
    (∀ text : String, pyInt? text = none →
      _formalQubit text = .ok (.formal text)) ∧
    (∀ text : String, ∃ q, _formalQubit text = .ok q) := by
  refine ⟨?_, ?_, ?_⟩
  · intro text n h
    simp [_formalQubit, _qubit, h]
  · intro text h
    simp [_formalQubit, _qubit, h]
  · intro text
    cases h : pyInt? text with
    | some n => exact ⟨.qubit n, by simp [_formalQubit, _qubit, h]⟩
    | none => exact ⟨.formal text, by simp [_formalQubit, _qubit, h]⟩

/-- Witness for C4: the resolution theorem applied to the concrete integer literal `"7"`
and the concrete identifier `"theta"`. -/
theorem formalQubit_resolution_witness :
    _formalQubit "7" = .ok (.qubit 7) ∧ _formalQubit "theta" = .ok (.formal "theta") :=
  ⟨formalQubit_resolution.1 "7" 7 (by decide),
   formalQubit_resolution.2.1 "theta" (by decide)⟩

/-- C3: entering a calibration (or measure-calibration, or circuit) definition saves
the current accumulation buffer and starts an empty one; after the body walk appends
its instructions, exiting restores the saved buffer with exactly one new definition
instruction appended at the end, the body captured inside it and leaking nowhere
else. -/
theorem defScope_roundtrip :
    (∀ (s : ListenerState) (body : List Instr) (name : String) (params : List PExpr)
        (qubits : List QubitRef),
      enterDefCalibration s = ⟨[], some s.result⟩ ∧
      ((∀ p ∈ params, containedMrefs p = []) →
        exitDefCalibration name params qubits
          { result := (enterDefCalibration s).result ++ body,
            previous_result := (enterDefCalibration s).previous_result } =
          .ok ⟨s.result ++ [.defCalibration name params qubits body], none⟩)) ∧
    (∀ (s : ListenerState) (body : List Instr) (memRefName : Option String)
        (fqText : String) (q : QubitRef),
      enterDefMeasCalibration s = ⟨[], some s.result⟩ ∧
      (_formalQubit fqText = .ok q →
        exitDefMeasCalibration memRefName fqText
          { result := (enterDefMeasCalibration s).result ++ body,
            previous_result := (enterDefMeasCalibration s).previous_result } =
          .ok ⟨s.result ++ [.defMeasureCalibration q memRefName body], none⟩)) ∧
    (∀ (out : Instr → String) (s : ListenerState) (body : List Instr) (name : String)
        (vs qvs : List String),
      enterDefCircuit s = ⟨[], some s.result⟩ ∧
      exitDefCircuit out name vs qvs
        { result := (enterDefCircuit s).result ++ body,
          previous_result := (enterDefCircuit s).previous_result } =
        .ok ⟨s.result ++ [.rawInstr (defcircuitHeader name vs qvs ++
          String.intercalate "\n    " ("" :: body.map out))], none⟩) := by
  refine ⟨?_, ?_, ?_⟩
  · intro s body name params qubits
    refine ⟨rfl, ?_⟩
    intro hclean
    have hfind : params.find? (fun p => !(containedMrefs p).isEmpty) = none := by
      rw [List.find?_eq_none]
      intro p hp
      simp [hclean p hp]
    simp [exitDefCalibration, enterDefCalibration, hfind]
  · intro s body memRefName fqText q
    refine ⟨rfl, ?_⟩
    intro hq
    simp [exitDefMeasCalibration, enterDefMeasCalibration, hq, bind, Except.bind]
  · intro out s body name vs qvs
    exact ⟨rfl, by simp [exitDefCircuit, enterDefCircuit]⟩

/-- Witness for C3: the roundtrip theorem applied to a concrete enclosing buffer, a
concrete calibration body and clean parameters. -/
theorem defScope_roundtrip_witness :
    exitDefCalibration "RX" [.param "theta"] [.formal "q"]
      { result := (enterDefCalibration
          ⟨[.rawInstr "NOP"], none⟩).result ++ [.gate ⟨"X", [], [.qubit 0], []⟩],
        previous_result := (enterDefCalibration ⟨[.rawInstr "NOP"], none⟩).previous_result } =
      .ok ⟨[.rawInstr "NOP"] ++ [.defCalibration "RX" [.param "theta"] [.formal "q"]
        [.gate ⟨"X", [], [.qubit 0], []⟩]], none⟩ :=
  ((defScope_roundtrip.1 ⟨[.rawInstr "NOP"], none⟩ [.gate ⟨"X", [], [.qubit 0], []⟩]
    "RX" [.param "theta"] [.formal "q"]).2 (by decide))

theorem render_mem_mrefsRenderList :
    ∀ {l : List MemRef} {m : MemRef}, m ∈ l → MemRef.render m ∈ mrefsRenderList l := by
  intro l
  induction l with
  | nil => intro m h; cases h
  | cons a rest ih =>
    intro m h
    cases rest with
    | nil =>
      simp only [List.mem_singleton] at h
      subst h
      simp [mrefsRenderList]
    | cons b rest' =>
      rcases List.mem_cons.mp h with rfl | hm
      · simp [mrefsRenderList]
      · simp only [mrefsRenderList, List.mem_cons]
        exact Or.inr (Or.inr (ih hm))

/-- C5: a calibration definition whose formal parameters contain live memory references
fails with a `ValueError` naming the offending references of the first offending
parameter; with no such parameter the definition succeeds, appending the single
`DefCalibration`. -/
theorem defcal_mref_validation :
    (∀ (name : String) (params : List PExpr) (qubits : List QubitRef)
        (s : ListenerState),
      (∃ p ∈ params, containedMrefs p ≠ []) →
      ∃ p msg, p ∈ params ∧ containedMrefs p ≠ [] ∧
        exitDefCalibration name params qubits s = .error (.valueError msg) ∧
        ∀ m ∈ containedMrefs p, StrInfix (MemRef.render m) msg) ∧
    (∀ (name : String) (params : List PExpr) (qubits : List QubitRef)
        (prev cur : List Instr),
      (∀ p ∈ params, containedMrefs p = []) →
      exitDefCalibration name params qubits ⟨cur, some prev⟩ =
        .ok ⟨prev ++ [.defCalibration name params qubits cur], none⟩) := by
  constructor
  · intro name params qubits s hex
    have hsome : (params.find? (fun p => !(containedMrefs p).isEmpty)).isSome := by
      rw [List.find?_isSome]
      obtain ⟨p, hp, hne⟩ := hex
      exact ⟨p, hp, by simpa using hne⟩
    obtain ⟨p, hfind⟩ := Option.isSome_iff_exists.mp hsome
    have hmem := List.mem_of_find?_eq_some hfind
    have hp := List.find?_some hfind
    refine ⟨p, String.join (defcalMrefMessageParts name (containedMrefs p)),
      hmem, by simpa using hp, by simp [exitDefCalibration, hfind], ?_⟩
    intro m hm
    have h2 : StrInfix (mrefsRender (containedMrefs p))
        (String.join (defcalMrefMessageParts name (containedMrefs p))) :=
      strInfix_join_mem (by simp [defcalMrefMessageParts])
    refine strInfix_trans ?_ h2
    exact strInfix_join_mem
      (List.mem_cons_of_mem _ (List.mem_append_left _ (render_mem_mrefsRenderList hm)))
  · intro name params qubits prev cur hclean
    have hfind : params.find? (fun p => !(containedMrefs p).isEmpty) = none := by
      rw [List.find?_eq_none]
      intro p hp
      simp [hclean p hp]
    simp [exitDefCalibration, hfind]

/-- Witness for C5: the validation theorem applied to a calibration definition with the
concrete offending parameter `beta[0]` and to one with a clean parameter. -/
theorem defcal_mref_validation_witness :
    (∃ p msg, p ∈ [PExpr.memRef ⟨"beta", 0⟩] ∧ containedMrefs p ≠ [] ∧
      exitDefCalibration "RX" [PExpr.memRef ⟨"beta", 0⟩] [QubitRef.formal "q"]
        ListenerState.init = .error (.valueError msg) ∧
      ∀ m ∈ containedMrefs p, StrInfix (MemRef.render m) msg) ∧
    exitDefCalibration "RX" [PExpr.num 1] [QubitRef.formal "q"] ⟨[], some []⟩ =
      .ok ⟨[] ++ [.defCalibration "RX" [PExpr.num 1] [QubitRef.formal "q"] []], none⟩ :=
  ⟨defcal_mref_validation.1 "RX" [PExpr.memRef ⟨"beta", 0⟩] [QubitRef.formal "q"]
      ListenerState.init ⟨PExpr.memRef ⟨"beta", 0⟩, by simp, by simp [containedMrefs]⟩,
   defcal_mref_validation.2 "RX" [PExpr.num 1] [QubitRef.formal "q"] [] []
      (by simp [containedMrefs])⟩

theorem mapFormalQubits_ok (l : List String) :
    ∃ qs : List QubitRef, mapFormalQubits l = .ok qs := by
  induction l with
  | nil => exact ⟨[], rfl⟩
  | cons t rest ih =>
    obtain ⟨qs, hqs⟩ := ih
    obtain ⟨q, hq⟩ := formalQubit_resolution.2.2 t
    exact ⟨q :: qs, by simp [mapFormalQubits, hq, hqs, bind, Except.bind]⟩

/-- C6 counterexample: `DELAY 0 "xy" "rf" 1.0` names two frames but the builder appends
exactly ONE delay instruction (a single `DelayFrames` holding both frames), not one
instruction per named frame. -/
theorem exitDelay_counterexample :
    (exitDelay ["0"] ["\"xy\"", "\"rf\""] (.num 1) .init).map
        (fun s' => s'.result.length) = .ok 1 ∧
    ¬ (exitDelay ["0"] ["\"xy\"", "\"rf\""] (.num 1) .init).map
        (fun s' => s'.result.length) = .ok 2 := by
  constructor
  · rfl
  · intro h
    have h1 : (exitDelay ["0"] ["\"xy\"", "\"rf\""] (.num 1) .init).map
        (fun s' => s'.result.length) = .ok 1 := rfl
    rw [h1] at h
    simp at h

/-- C6 (amended): with explicit frame-name string literals present the builder appends
a SINGLE frame-delay instruction carrying one synthesized frame per named frame, each
scoped to the given qubits; otherwise it appends a single qubit-scoped delay keyed by
the duration expression. -/
theorem exitDelay_spec :
    ∀ (fqTexts strs : List String) (dur : PExpr) (s : ListenerState),
      ∃ qs : List QubitRef, mapFormalQubits fqTexts = .ok qs ∧
        (strs ≠ [] → exitDelay fqTexts strs dur s = .ok { s with result := s.result ++
          [.delayFrames ((strs.map stripQuotes).map (fun n => (qs, n))) dur] }) ∧
        (strs = [] → exitDelay fqTexts strs dur s = .ok { s with result := s.result ++
          [.delayQubits qs dur] }) := by
  intro fqTexts strs dur s
  obtain ⟨qs, hqs⟩ := mapFormalQubits_ok fqTexts
  refine ⟨qs, hqs, ?_, ?_⟩
  · intro hne
    have hmapne : strs.map stripQuotes ≠ [] := by simpa using hne
    simp [exitDelay, hqs, bind, Except.bind, hmapne]
  · intro heq
    subst heq
    simp [exitDelay, hqs, bind, Except.bind]

/-- Witness for C6: the amended theorem applied to the concrete delay node
`DELAY 0 "xy" "rf" 1.0` and to a frameless one. -/
theorem exitDelay_spec_witness :
    (∃ qs : List QubitRef, mapFormalQubits ["0"] = .ok qs ∧
      exitDelay ["0"] ["\"xy\"", "\"rf\""] (.num 1) .init =
        .ok { ListenerState.init with result := ListenerState.init.result ++
          [.delayFrames (((["\"xy\"", "\"rf\""] : List String).map stripQuotes).map
            (fun n => (qs, n))) (.num 1)] }) ∧
    (∃ qs : List QubitRef, mapFormalQubits ["0"] = .ok qs ∧
      exitDelay ["0"] [] (.num 1) .init =
        .ok { ListenerState.init with result := ListenerState.init.result ++
          [.delayQubits qs (.num 1)] }) := by
  constructor
  · obtain ⟨qs, hqs, h1, _⟩ := exitDelay_spec ["0"] ["\"xy\"", "\"rf\""] (.num 1) .init
    exact ⟨qs, hqs, h1 (by simp)⟩
  · obtain ⟨qs, hqs, _, h2⟩ := exitDelay_spec ["0"] [] (.num 1) .init
    exact ⟨qs, hqs, h2 rfl⟩

/-- C7: defining a waveform whose name collides with a reserved catalog template fails
with the redefinition `ValueError` before anything is appended; a non-colliding name is
appended as a single `DefWaveform` with its parameters and row-flattened entries. -/
theorem defWaveform_reserved :
    ∀ (wc specs params : List String) (matrix : List (List PExpr)) (s : ListenerState),
      (_waveform_name specs ∈ wc →
        ∃ msg, exitDefWaveform wc specs params matrix s = .error (.valueError msg)) ∧
      (_waveform_name specs ∉ wc →
        exitDefWaveform wc specs params matrix s = .ok { s with result := s.result ++
          [.defWaveform (_waveform_name specs) params matrix.flatten] }) := by
  intro wc specs params matrix s
  constructor
  · intro hin
    exact ⟨"Attempted to redefine built-in template waveform " ++ _waveform_name specs ++ ".",
      by simp [exitDefWaveform, hin]⟩
  · intro hout
    simp [exitDefWaveform, hout]

/-- Witness for C7: the reservation theorem applied to the concrete catalog `["flat"]`
with the colliding definition `DEFWAVEFORM flat` and the fresh one
`DEFWAVEFORM my_wf`. -/
theorem defWaveform_reserved_witness :
    (∃ msg, exitDefWaveform ["flat"] ["flat"] [] [[.num 1]] .init =
      .error (.valueError msg)) ∧
    exitDefWaveform ["flat"] ["my_wf"] [] [[.num 1]] .init =
      .ok { ListenerState.init with result := ListenerState.init.result ++
        [.defWaveform (_waveform_name ["my_wf"]) []
          ([[PExpr.num 1]] : List (List PExpr)).flatten] } :=
  ⟨(defWaveform_reserved ["flat"] ["flat"] [] [[.num 1]] .init).1 (by decide),
   (defWaveform_reserved ["flat"] ["my_wf"] [] [[.num 1]] .init).2 (by decide)⟩

/-- C9: a memory declaration without an explicit size has element count 1; with a
`SHARING` clause it carries the shared-region name and the offset pairs in source order
(`SHARING foo OFFSET 2 INTEGER` giving region `foo` and the single pair
`(2, "INTEGER")`); without `SHARING` the region is absent and the offset list empty. -/
theorem memoryDescriptor_spec :
    (∀ (ctx : MemoryDescriptorCtx) (s : ListenerState),
      ∃ size region offs,
        exitMemoryDescriptor ctx s = { s with result := s.result ++
          [.declare ctx.name ctx.memoryType size region offs] } ∧
        (ctx.int? = none → size = 1) ∧
        (∀ n, ctx.int? = some n → size = n) ∧
        (∀ r, ctx.sharingIdent? = some r →
          region = some r ∧ offs = ctx.offsetDescriptors) ∧
        (ctx.sharingIdent? = none → region = none ∧ offs = [])) ∧
    exitMemoryDescriptor ⟨"b", "BIT", none, some "foo", [(2, "INTEGER")]⟩ .init =
      ⟨[.declare "b" "BIT" 1 (some "foo") [(2, "INTEGER")]], none⟩ := by
  constructor
  · intro ctx s
    obtain ⟨nm, ty, i, sh, offs⟩ := ctx
    cases i <;> cases sh <;>
      exact ⟨_, _, _, rfl, by simp, by simp, by simp, by simp⟩
  · rfl

/-- Witness for C9: the declaration theorem applied to the concrete node
`DECLARE b BIT SHARING foo OFFSET 2 INTEGER`. -/
theorem memoryDescriptor_spec_witness :
    ∃ size region offs,
      exitMemoryDescriptor ⟨"b", "BIT", none, some "foo", [(2, "INTEGER")]⟩ .init =
        { ListenerState.init with result := ListenerState.init.result ++
          [.declare "b" "BIT" size region offs] } ∧
      size = 1 ∧ region = some "foo" ∧ offs = [(2, "INTEGER")] := by
  obtain ⟨size, region, offs, heq, h1, _, h3, _⟩ :=
    memoryDescriptor_spec.1 ⟨"b", "BIT", none, some "foo", [(2, "INTEGER")]⟩ .init
  obtain ⟨hr, ho⟩ := h3 "foo" rfl
  exact ⟨size, region, offs, heq, h1 rfl, hr, ho⟩

/-- C10: `AND`, `IOR` and `XOR` accept an integer literal or a memory address as right
operand and append the corresponding instruction; the deprecated `OR` raises a fatal
`RuntimeError` (appending nothing) whenever its right operand is an integer literal,
and appends `ClassicalOr` when it is a memory reference. -/
theorem logicalBinaryOp_spec :
    ∀ (ctx : LogicalBinaryOpCtx) (s : ListenerState) (left : MemRef),
      _addr ctx.addr0 = .ok left →
      (∀ n, ctx.int? = some n →
        (ctx.op = .opAND → exitLogicalBinaryOp ctx s =
          .ok { s with result := s.result ++ [.classicalAnd left (.inl n)] }) ∧
        (ctx.op = .opIOR → exitLogicalBinaryOp ctx s =
          .ok { s with result := s.result ++ [.classicalInclusiveOr left (.inl n)] }) ∧
        (ctx.op = .opXOR → exitLogicalBinaryOp ctx s =
          .ok { s with result := s.result ++ [.classicalExclusiveOr left (.inl n)] }) ∧
        (ctx.op = .opOR →
          ∃ msg, exitLogicalBinaryOp ctx s = .error (.runtimeError msg))) ∧
      (∀ a m, ctx.int? = none → ctx.addr1? = some a → _addr a = .ok m →
        (ctx.op = .opAND → exitLogicalBinaryOp ctx s =
          .ok { s with result := s.result ++ [.classicalAnd left (.inr m)] }) ∧
        (ctx.op = .opIOR → exitLogicalBinaryOp ctx s =
          .ok { s with result := s.result ++ [.classicalInclusiveOr left (.inr m)] }) ∧
        (ctx.op = .opXOR → exitLogicalBinaryOp ctx s =
          .ok { s with result := s.result ++ [.classicalExclusiveOr left (.inr m)] }) ∧
        (ctx.op = .opOR → exitLogicalBinaryOp ctx s =
          .ok { s with result := s.result ++ [.classicalOr left m] })) := by
  intro ctx s left hleft
  obtain ⟨op, a0, i, a1⟩ := ctx
  simp only at hleft
  constructor
  · intro n hn
    simp only at hn
    subst hn
    refine ⟨?_, ?_, ?_, ?_⟩ <;> intro hop <;> simp only at hop <;> subst hop <;>
      simp [exitLogicalBinaryOp, hleft, bind, Except.bind, pure, Except.pure]
  · intro a m hi ha hm
    simp only at hi ha
    subst hi
    subst ha
    refine ⟨?_, ?_, ?_, ?_⟩ <;> intro hop <;> simp only at hop <;> subst hop <;>
      simp [exitLogicalBinaryOp, hleft, hm, bind, Except.bind, pure, Except.pure]

/-- Witness for C10: the theorem applied to the concrete instructions `AND ro[0] 1` and
`OR ro[0] 1` (integer right operand: `AND` appends, deprecated `OR` raises). -/
theorem logicalBinaryOp_spec_witness :
    (exitLogicalBinaryOp ⟨.opAND, ⟨some "ro", none⟩, some 1, none⟩ .init =
      .ok { ListenerState.init with result := ListenerState.init.result ++
        [.classicalAnd ⟨"ro", 0⟩ (.inl 1)] }) ∧
    (∃ msg, exitLogicalBinaryOp ⟨.opOR, ⟨some "ro", none⟩, some 1, none⟩ .init =
      .error (.runtimeError msg)) :=
  ⟨((logicalBinaryOp_spec ⟨.opAND, ⟨some "ro", none⟩, some 1, none⟩ .init
      ⟨"ro", 0⟩ rfl).1 1 rfl).1 rfl,
   ((logicalBinaryOp_spec ⟨.opOR, ⟨some "ro", none⟩, some 1, none⟩ .init
      ⟨"ro", 0⟩ rfl).1 1 rfl).2.2.2 rfl⟩
